import Mathlib

/-!
Verification of the Health Campaign patient-record service (src/medic/server.js,
with the earlier minimal version in src/unnamed/part_000).  The definitions below
are a shallow embedding of the JavaScript source: route handlers become Lean
functions over an explicit store (a list of patient records), Mongoose hooks
become explicit normalization passes, and readings of `new Date()` become an
explicit `Clock` input.
-/

namespace HealthCamp

/-! ## String utilities (embedding JS string/regex operations) -/

/-- Embeds `startsWith` on character lists: does the first list start with the second? -/
def startsWithChars : List Char → List Char → Bool
  | _, [] => true
  | [], _ :: _ => false
  | a :: as, b :: bs => a == b && startsWithChars as bs

/-- Embeds an (unanchored) substring test, as MongoDB `$regex` with a literal
pattern: does the pattern (second argument) occur inside the first list?
An empty pattern matches everything, as the empty regex does. -/
def occursInChars (hay : List Char) (pat : List Char) : Bool :=
  match hay with
  | [] => pat.isEmpty
  | _ :: t => startsWithChars hay pat || occursInChars t pat

/-- Case-insensitive substring test: `$regex` with `$options: 'i'`. -/
def occursCI (pat : String) (hay : String) : Bool :=
  occursInChars (hay.data.map Char.toLower) (pat.data.map Char.toLower)

/-- Case-sensitive substring test on strings. -/
def occursIn (pat : String) (hay : String) : Bool :=
  occursInChars hay.data pat.data

/-- Embeds `v.replace(/\D/g, '')`: keep only digit characters. -/
def stripNonDigits (s : String) : String :=
  String.mk (s.data.filter Char.isDigit)

/-- Embeds JS `trim()`: drop whitespace from both ends.  (Defined over the
character list so that concrete inputs evaluate by kernel reduction.) -/
def strTrim (s : String) : String :=
  String.mk (((s.data.dropWhile Char.isWhitespace).reverse.dropWhile Char.isWhitespace).reverse)

/-- Embeds `v.replace(/\s+/g, ' ')` on the character list: every maximal run of
whitespace becomes a single space. -/
def collapseWsChars : List Char → List Char
  | [] => []
  | [c] => [if c.isWhitespace then ' ' else c]
  | c :: d :: t =>
    if c.isWhitespace && d.isWhitespace then collapseWsChars (d :: t)
    else (if c.isWhitespace then ' ' else c) :: collapseWsChars (d :: t)

/-- Embeds `v.replace(/\s+/g, ' ').trim()` from the pre-save hook. -/
def collapseWs (s : String) : String :=
  strTrim (String.mk (collapseWsChars s.data))

/-! ## CSV escaping (`escapeCsvField` inside `convertToCSV`) -/

/-- Does the field need quoting: `str.includes(',') || str.includes('"') || str.includes('\n')`. -/
def needsQuote (s : String) : Bool :=
  s.data.any (fun c => c == ',' || c == '"' || c == '\n')

/-- Embeds `str.replace(/"/g, '""')`: every double-quote is doubled. -/
def doubleQuotes : List Char → List Char
  | [] => []
  | c :: t => if c = '"' then '"' :: '"' :: doubleQuotes t else c :: doubleQuotes t

/-- The source's `escapeCsvField`: wrap in quotes and double the internal quotes
when the field contains a delimiter, quote, or newline; otherwise leave it alone. -/
def escapeCsvField (s : String) : String :=
  if needsQuote s then String.mk ('"' :: (doubleQuotes s.data ++ ['"'])) else s

/-- Inverse of quote doubling: each `""` pair collapses back to one `"`. -/
def undoubleQuotes : List Char → List Char
  | [] => []
  | [c] => [c]
  | c :: d :: t =>
    if c = '"' ∧ d = '"' then '"' :: undoubleQuotes t
    else c :: undoubleQuotes (d :: t)

/-- A standard CSV cell reader: a cell wrapped in double quotes is unwrapped and
its doubled quotes collapsed; any other cell is taken literally.  This is the
specified round-trip partner of `escapeCsvField` (the repository has no parser). -/
def parseCsvCell (s : String) : String :=
  if s.data.head? = some '"' ∧ s.data.getLast? = some '"' ∧ 2 ≤ s.data.length
  then String.mk (undoubleQuotes (s.data.drop 1).dropLast)
  else s

deriving instance DecidableEq for Except

/-! ## Data model -/

/-- One entry of `modificationHistory`: the action tag, the timestamp, and the
keys of the `changes` diff object (requester metadata is transport plumbing and
out of scope). -/
structure HistoryEntry where
  action : String
  timestamp : Nat
  changedFields : List String
deriving Repr, DecidableEq

/-- A persisted patient document, following `patientSchema`.  Timestamps are
modelled as natural numbers (milliseconds); the string-formatted date/time
fields hold whatever `toLocaleDateString`/`toLocaleTimeString` produced, which
the `Clock` supplies. -/
structure Patient where
  id : Nat
  name : String
  age : Nat
  sex : String
  occupation : String
  tel : String
  familyGroup : String
  service : Option String
  services : List String
  registrationDate : String
  registrationTime : String
  status : String
  diagnosis : String
  labTests : List String
  treatmentPlan : String
  completionDate : String
  completionTime : String
  createdAt : Nat
  lastModified : Nat
  modificationHistory : List HistoryEntry
  isDeleted : Bool
  deletedAt : Option Nat
deriving Repr, DecidableEq

/-- The readings of `new Date()` taken during one request: the instant and its
`en-GB` date and time renderings. -/
structure Clock where
  now : Nat
  dateString : String
  timeString : String
deriving Repr, DecidableEq

/-- The error outcomes of the route handlers, tagged by the branch of the
source that produces each one. -/
inductive ApiError where
  | servicesRequired
  | missingFields
  | invalidServices (bad : List String)
  | duplicatePhone
  | duplicateKey
  | notFound
  | deletedPatient
  | notDeleted
  | validationError
  | serverError
deriving Repr, DecidableEq

/-- The HTTP status each error is reported with. -/
def ApiError.httpStatus : ApiError → Nat
  | .servicesRequired => 400
  | .missingFields => 400
  | .invalidServices _ => 400
  | .duplicatePhone => 409
  | .duplicateKey => 409
  | .notFound => 404
  | .deletedPatient => 410
  | .notDeleted => 400
  | .validationError => 400
  | .serverError => 500

/-- Is an `Except` a success? -/
def exceptOk : Except ApiError Patient → Bool
  | .ok _ => true
  | .error _ => false

/-! ## Enumerations and schema validation -/

def validServices : List String :=
  ["General consultations", "Eye consultation", "Gynaecology",
   "Cervical cancer screening", "Sexual and reproductive health",
   "Dental consultation"]

def validLabTests : List String :=
  ["Malaria", "HIV", "HBV", "HCV", "Blood grouping", "Blood glucose",
   "Syphilis", "Ultrasound", "X-ray", "ECG", "Urinalysis", "Lipid Profile"]

def validFamilyGroups : List String :=
  ["ESDA", "MASUDA", "AKUCDA", "UBACDA", "OTHERS"]

def validStatuses : List String :=
  ["registered", "completed", "cancelled", "deleted"]

/-- The name validator's character class `[a-zA-Z\s\-\.\']`. -/
def nameCharOk (c : Char) : Bool :=
  c.isAlpha || c.isWhitespace || c == '-' || c == '.' || c == '\''

/-- The `name` field rules: 2 to 100 characters, all from the allowed class. -/
def nameOk (s : String) : Bool :=
  2 ≤ s.length && s.length ≤ 100 && s.data.all nameCharOk

/-- The `tel` validator: 8 to 15 digits after stripping non-digit characters. -/
def telOk (s : String) : Bool :=
  8 ≤ (stripNonDigits s).length && (stripNonDigits s).length ≤ 15

/-- Mongoose schema validation of `patientSchema`, run by `save()` before the
pre-save hook. -/
def schemaValidate (p : Patient) : Bool :=
  nameOk p.name &&
  p.age ≤ 150 &&
  (p.sex == "Male" || p.sex == "Female") &&
  p.occupation.length ≤ 100 &&
  telOk p.tel &&
  validFamilyGroups.contains p.familyGroup &&
  p.services.length > 0 &&
  p.services.all (fun s => validServices.contains s) &&
  validStatuses.contains p.status &&
  p.diagnosis.length ≤ 2000 &&
  p.labTests.all (fun t => validLabTests.contains t) &&
  p.treatmentPlan.length ≤ 3000

/-! ## Persistence-layer hooks -/

/-- The legacy alias rewriting of the pre-save and pre-update hooks:
`"Eye con"` becomes `"Eye consultation"`, everything else is untouched. -/
def mapServiceAlias (s : String) : String :=
  if s == "Eye con" then "Eye consultation" else s

/-- The `patientSchema.pre('save')` hook: refresh `lastModified`, collapse
whitespace in `tel` and `name`, then normalize `service`/`services` — a
non-empty `services` list is alias-mapped and the singular field cleared,
otherwise a truthy singular `service` is alias-mapped and wrapped. -/
def preSaveHook (p : Patient) (c : Clock) : Patient :=
  let p1 := { p with lastModified := c.now, tel := collapseWs p.tel,
                     name := collapseWs p.name }
  if p1.services.length > 0 then
    { p1 with services := p1.services.map mapServiceAlias, service := none }
  else
    match p1.service with
    | some sv => if sv ≠ "" then { p1 with services := [mapServiceAlias sv], service := none }
                 else p1
    | none => p1

/-- The unique-index conflict on `tel` at write time: some record other than
the one being written (any record, soft-deleted ones included) holds exactly
the same `tel` string. -/
def hasTelConflict (store : List Patient) (t : String) (selfId : Nat) : Bool :=
  store.any (fun r => r.tel == t && r.id != selfId)

/-- The create handler's duplicate check: an existing non-deleted record whose
`tel` is exactly the submitted string (`findOne({ tel, isDeleted: { $ne: true } })`). -/
def hasDupNonDeleted (store : List Patient) (t : String) : Bool :=
  store.any (fun r => r.tel == t && !r.isDeleted)

/-- The effect of `document.save()` against the store: schema validation runs
first, then the pre('save') hook, then the write, at which point the unique
index on `tel` (covering deleted and non-deleted records alike) can reject with
a duplicate-key error — Mongo code 11000, which `handleError` maps to HTTP 409.
The document does not conflict with itself, hence the self-id exclusion. -/
def saveRecord (store : List Patient) (p : Patient) (c : Clock) : Except ApiError Patient :=
  if !schemaValidate p then .error .validationError
  else
    let q := preSaveHook p c
    if q.services.length == 0 then .error .serverError
    else if hasTelConflict store q.tel p.id then .error .duplicateKey
    else .ok q

/-- `addModificationHistory`: a `findByIdAndUpdate` pushing one history entry;
the pre-update middleware also refreshes `lastModified`. -/
def appendHistory (p : Patient) (action : String) (changed : List String) (c : Clock) : Patient :=
  { p with lastModified := c.now,
           modificationHistory := p.modificationHistory ++ [⟨action, c.now, changed⟩] }

/-! ## Create (POST /api/patients) -/

/-- The create request body.  The fields after `services` are the ones the
handler's whitelist ignores; they are carried here so that ignoring them is a
provable property rather than a modelling choice. -/
structure CreateInput where
  name : Option String := none
  age : Option Nat := none
  sex : Option String := none
  occupation : Option String := none
  tel : Option String := none
  familyGroup : Option String := none
  service : Option String := none
  services : Option (List String) := none
  status : Option String := none
  isDeleted : Option Bool := none
  diagnosis : Option String := none
  treatmentPlan : Option String := none
  labTests : Option (List String) := none
  completionDate : Option String := none
  completionTime : Option String := none
  modificationHistory : Option (List HistoryEntry) := none
deriving Repr, DecidableEq

/-- `sanitizeInput`: drop null/undefined keys and trim every string value
(arrays pass through unchanged). -/
def sanitizeCreate (i : CreateInput) : CreateInput :=
  { i with name := i.name.map strTrim, sex := i.sex.map strTrim,
           occupation := i.occupation.map strTrim, tel := i.tel.map strTrim,
           familyGroup := i.familyGroup.map strTrim, service := i.service.map strTrim,
           status := i.status.map strTrim, diagnosis := i.diagnosis.map strTrim,
           treatmentPlan := i.treatmentPlan.map strTrim,
           completionDate := i.completionDate.map strTrim,
           completionTime := i.completionTime.map strTrim }

/-- The singular-service fallback of the create handler: a non-blank `service`
is wrapped into a one-element list. -/
def resolveSingle (i : CreateInput) : Option (List String) :=
  match i.service with
  | some s => if strTrim s ≠ "" then some [strTrim s] else none
  | none => none

/-- Route-level services resolution in the create handler: a non-empty
`services` array wins (blank entries dropped), else the singular `service` is
wrapped; `none` is the 400 "Services required" rejection. -/
def resolveServices (i : CreateInput) : Option (List String) :=
  match i.services with
  | some ss =>
    if ss.length > 0 then some (ss.filter (fun s => strTrim s ≠ ""))
    else resolveSingle i
  | none => resolveSingle i

/-- The create handler's required-field check, with JS falsiness: an absent
field, an empty string, and the number 0 all count as missing. -/
def requiredPresent (i : CreateInput) : Bool :=
  i.name.getD "" != "" && i.age.getD 0 != 0 && i.sex.getD "" != "" &&
  i.tel.getD "" != "" && i.familyGroup.getD "" != ""

/-- The record handed to `new Patient(patientData)`: the whitelisted fields,
`status` forced to `registered`, and the schema defaults for everything else. -/
def buildNewPatient (i : CreateInput) (svs : List String) (c : Clock) (newId : Nat) : Patient :=
  { id := newId,
    name := i.name.getD "", age := i.age.getD 0, sex := i.sex.getD "",
    occupation := i.occupation.getD "",
    tel := i.tel.getD "", familyGroup := i.familyGroup.getD "",
    service := none, services := svs,
    registrationDate := c.dateString, registrationTime := c.timeString,
    status := "registered",
    diagnosis := "", labTests := [], treatmentPlan := "",
    completionDate := "", completionTime := "",
    createdAt := c.now, lastModified := c.now,
    modificationHistory := [], isDeleted := false, deletedAt := none }

/-- POST /api/patients: sanitize, resolve services, check required fields,
validate the resolved services against the current list, reject a duplicate
phone among non-deleted records (exact string match on `tel`), then save and
append the `created` history entry.  Returns the store after the operation and
either the stored record or the error. -/
def createPatient (store : List Patient) (inp0 : CreateInput) (c : Clock) (newId : Nat) :
    List Patient × Except ApiError Patient :=
  let inp := sanitizeCreate inp0
  match resolveServices inp with
  | none => (store, .error .servicesRequired)
  | some svs =>
    if !requiredPresent inp then (store, .error .missingFields)
    else
      let bad := svs.filter (fun s => !validServices.contains s)
      if bad ≠ [] then (store, .error (.invalidServices bad))
      else if hasDupNonDeleted store (inp.tel.getD "") then
        (store, .error .duplicatePhone)
      else
        match saveRecord store (buildNewPatient inp svs c newId) c with
        | .error e => (store, .error e)
        | .ok q =>
          let q' := appendHistory q "created"
            ["name", "age", "sex", "occupation", "tel", "familyGroup", "status", "services"] c
          (store ++ [q'], .ok q')

/-! ## Update (PUT /api/patients) -/

/-- The update request body (`req.body` minus `id`). -/
structure UpdateInput where
  name : Option String := none
  age : Option Nat := none
  sex : Option String := none
  occupation : Option String := none
  tel : Option String := none
  familyGroup : Option String := none
  status : Option String := none
  diagnosis : Option String := none
  treatmentPlan : Option String := none
  labTests : Option (List String) := none
  service : Option String := none
  services : Option (List String) := none
deriving Repr, DecidableEq

/-- `sanitizeInput` on the update payload: trim every string value. -/
def sanitizeUpdate (i : UpdateInput) : UpdateInput :=
  { i with name := i.name.map strTrim, sex := i.sex.map strTrim,
           occupation := i.occupation.map strTrim, tel := i.tel.map strTrim,
           familyGroup := i.familyGroup.map strTrim, status := i.status.map strTrim,
           diagnosis := i.diagnosis.map strTrim, treatmentPlan := i.treatmentPlan.map strTrim,
           service := i.service.map strTrim }

/-- The update handler's singular-service fallback: a non-blank `service`
becomes a one-element `services` list and the singular field is cleared. -/
def mergeSingleService (i : UpdateInput) : UpdateInput :=
  match i.service with
  | some s => if strTrim s ≠ "" then { i with services := some [strTrim s], service := none }
              else i
  | none => i

/-- The update handler's services merge: a non-empty `services` array is kept
(blank entries dropped) and the singular field cleared, else the singular
fallback applies. -/
def mergeUpdateServices (i : UpdateInput) : UpdateInput :=
  match i.services with
  | some ss =>
    if ss.length > 0 then
      { i with services := some (ss.filter (fun s => strTrim s ≠ "")), service := none }
    else mergeSingleService i
  | none => mergeSingleService i

/-- The validators that `findByIdAndUpdate` with `runValidators: true` runs on
the paths present in the update. -/
def updateValidate (i : UpdateInput) : Bool :=
  (match i.name with | some n => nameOk n | none => true) &&
  (match i.age with | some a => decide (a ≤ 150) | none => true) &&
  (match i.sex with | some sx => sx == "Male" || sx == "Female" | none => true) &&
  (match i.occupation with | some o => decide (o.length ≤ 100) | none => true) &&
  (match i.tel with | some t => telOk t | none => true) &&
  (match i.familyGroup with | some fg => validFamilyGroups.contains fg | none => true) &&
  (match i.status with | some st => validStatuses.contains st | none => true) &&
  (match i.diagnosis with | some d => decide (d.length ≤ 2000) | none => true) &&
  (match i.labTests with | some ts => ts.all (fun t => validLabTests.contains t) | none => true) &&
  (match i.treatmentPlan with | some t => decide (t.length ≤ 3000) | none => true) &&
  (match i.services with
   | some ss => decide (ss.length > 0) && ss.all (fun s => validServices.contains s)
   | none => true)

/-- The duplicate-phone check of the update handler: only when `tel` is being
changed, and only against non-deleted other records, by exact string match. -/
def dupTelCheck (store : List Patient) (id : Nat) (cur : Patient) (inp : UpdateInput) : Bool :=
  match inp.tel with
  | some t => t != cur.tel && store.any (fun r => r.tel == t && r.id != id && !r.isDeleted)
  | none => false

/-- The route's change diff: each key present in the sanitized update whose
value differs from the stored one (completion timestamps included when the
route added them). -/
def changedKeys (cur : Patient) (inp : UpdateInput) (completion : Option (String × String)) :
    List String :=
  (if inp.name.any (fun v => v != cur.name) then ["name"] else []) ++
  (if inp.age.any (fun v => v != cur.age) then ["age"] else []) ++
  (if inp.sex.any (fun v => v != cur.sex) then ["sex"] else []) ++
  (if inp.occupation.any (fun v => v != cur.occupation) then ["occupation"] else []) ++
  (if inp.tel.any (fun v => v != cur.tel) then ["tel"] else []) ++
  (if inp.familyGroup.any (fun v => v != cur.familyGroup) then ["familyGroup"] else []) ++
  (if inp.status.any (fun v => v != cur.status) then ["status"] else []) ++
  (if inp.diagnosis.any (fun v => v != cur.diagnosis) then ["diagnosis"] else []) ++
  (if inp.treatmentPlan.any (fun v => v != cur.treatmentPlan) then ["treatmentPlan"] else []) ++
  (if inp.labTests.any (fun v => v != cur.labTests) then ["labTests"] else []) ++
  (if inp.services.any (fun v => v != cur.services) then ["services"] else []) ++
  (if completion.any (fun v => v.1 != cur.completionDate) then ["completionDate"] else []) ++
  (if completion.any (fun v => v.2 != cur.completionTime) then ["completionTime"] else [])

/-- `findByIdAndUpdate` applying the sanitized update: present fields replace
the stored values; the `pre(['updateOne','findOneAndUpdate'])` middleware
refreshes `lastModified` and alias-maps a `services` update; the route has
already cleared `service` whenever it resolved a services list. -/
def applyUpdate (cur : Patient) (i : UpdateInput) (completion : Option (String × String))
    (c : Clock) : Patient :=
  { cur with
    name := i.name.getD cur.name,
    age := i.age.getD cur.age,
    sex := i.sex.getD cur.sex,
    occupation := i.occupation.getD cur.occupation,
    tel := i.tel.getD cur.tel,
    familyGroup := i.familyGroup.getD cur.familyGroup,
    status := i.status.getD cur.status,
    diagnosis := i.diagnosis.getD cur.diagnosis,
    treatmentPlan := i.treatmentPlan.getD cur.treatmentPlan,
    labTests := i.labTests.getD cur.labTests,
    services := (i.services.map (fun ss => ss.map mapServiceAlias)).getD cur.services,
    service := if i.services.isSome then none else cur.service,
    completionDate := (completion.map Prod.fst).getD cur.completionDate,
    completionTime := (completion.map Prod.snd).getD cur.completionTime,
    lastModified := c.now }

/-- Continuation of the update handler after the services checks: completion
timestamps are added exactly when the update sets `completed` on a
not-yet-completed record; then the duplicate-tel check, `findByIdAndUpdate`,
and the history append (action `completed` when the update sets completed). -/
def updateContinue (store : List Patient) (id : Nat) (cur : Patient) (inp : UpdateInput)
    (c : Clock) : List Patient × Except ApiError Patient :=
  let completion : Option (String × String) :=
    if inp.status == some "completed" && cur.status != "completed"
    then some (c.dateString, c.timeString) else none
  if dupTelCheck store id cur inp then (store, .error .duplicatePhone)
  else if !updateValidate inp then (store, .error .validationError)
  else
    let q := applyUpdate cur inp completion c
    let action := if inp.status == some "completed" then "completed" else "updated"
    let q' := appendHistory q action (changedKeys cur inp completion) c
    (store.map (fun r => if r.id == id then q' else r), .ok q')

/-- PUT /api/patients: look up the record, refuse updates of deleted records
(410), sanitize and merge the services fields, validate them against the
current list, then continue with completion/duplicate handling and the write. -/
def updatePatient (store : List Patient) (id : Nat) (inp0 : UpdateInput) (c : Clock) :
    List Patient × Except ApiError Patient :=
  match store.find? (fun r => r.id == id) with
  | none => (store, .error .notFound)
  | some cur =>
    if cur.isDeleted then (store, .error .deletedPatient)
    else
      let inp := mergeUpdateServices (sanitizeUpdate inp0)
      match inp.services with
      | some ss =>
        let bad := ss.filter (fun s => !validServices.contains s)
        if bad ≠ [] then (store, .error (.invalidServices bad))
        else if ss.length == 0 then (store, .error .servicesRequired)
        else updateContinue store id cur inp c
      | none => updateContinue store id cur inp c

/-! ## Soft delete and restore -/

/-- DELETE /api/patients/:id without the permanent flag: the `softDelete`
instance method (isDeleted, deletedAt, status, then `save()`) followed by the
`deleted` history append. -/
def softDeletePatient (store : List Patient) (id : Nat) (c : Clock) :
    List Patient × Except ApiError Patient :=
  match store.find? (fun r => r.id == id) with
  | none => (store, .error .notFound)
  | some p =>
    match saveRecord store { p with isDeleted := true, deletedAt := some c.now,
                                    status := "deleted" } c with
    | .error e => (store, .error e)
    | .ok q =>
      let q' := appendHistory q "deleted" ["deletedAt"] c
      (store.map (fun r => if r.id == id then q' else r), .ok q')

/-- POST /api/patients/:id/restore: refuse when the record is not currently
soft-deleted (400), else the `restore` instance method (clear isDeleted and
deletedAt, status back to registered, `save()`) and an `updated` history
append noting the restoration. -/
def restorePatient (store : List Patient) (id : Nat) (c : Clock) :
    List Patient × Except ApiError Patient :=
  match store.find? (fun r => r.id == id) with
  | none => (store, .error .notFound)
  | some p =>
    if !p.isDeleted then (store, .error .notDeleted)
    else
      match saveRecord store { p with isDeleted := false, deletedAt := none,
                                      status := "registered" } c with
      | .error e => (store, .error e)
      | .ok q =>
        let q' := appendHistory q "updated" ["restored"] c
        (store.map (fun r => if r.id == id then q' else r), .ok q')

/-! ## Bulk operations (POST /api/patients/bulk) -/

/-- The filter of the bulk `complete` branch: `_id` in the target set, status
`registered`, not soft-deleted. -/
def bulkCompleteMatch (ids : List Nat) (r : Patient) : Bool :=
  ids.contains r.id && r.status == "registered" && !r.isDeleted

/-- The `$set` of the bulk `complete` branch. -/
def completeTransform (r : Patient) (c : Clock) : Patient :=
  { r with status := "completed", completionDate := c.dateString,
           completionTime := c.timeString, lastModified := c.now }

/-- Bulk `complete`: one `updateMany`; the response's `affectedCount` is the
`modifiedCount` — every matched record is modified, since its status changes
from `registered` to `completed`. -/
def bulkComplete (store : List Patient) (ids : List Nat) (c : Clock) : List Patient × Nat :=
  (store.map (fun r => if bulkCompleteMatch ids r then completeTransform r c else r),
   (store.filter (bulkCompleteMatch ids)).length)

/-- `$set` semantics of the bulk `update` branch: present fields replace the
stored values verbatim — `updateMany` bypasses the pre-update middleware, so
there is no alias mapping and a supplied singular legacy `service` is stored
as-is. -/
def applyBulkSet (r : Patient) (i : UpdateInput) (c : Clock) : Patient :=
  { r with
    name := i.name.getD r.name, age := i.age.getD r.age, sex := i.sex.getD r.sex,
    occupation := i.occupation.getD r.occupation, tel := i.tel.getD r.tel,
    familyGroup := i.familyGroup.getD r.familyGroup, status := i.status.getD r.status,
    diagnosis := i.diagnosis.getD r.diagnosis,
    treatmentPlan := i.treatmentPlan.getD r.treatmentPlan,
    labTests := i.labTests.getD r.labTests,
    services := i.services.getD r.services,
    service := match i.service with | some s => some s | none => r.service,
    lastModified := c.now }

/-- The `updateMany` of the bulk `update` branch, over non-deleted targets.
The count is `modifiedCount`: every matched record receives the fresh
`lastModified` the route adds, so all matched records are modified. -/
def bulkUpdateApply (store : List Patient) (ids : List Nat) (upd : UpdateInput) (c : Clock) :
    List Patient × Nat :=
  (store.map (fun r => if ids.contains r.id && !r.isDeleted then applyBulkSet r upd c else r),
   (store.filter (fun r => ids.contains r.id && !r.isDeleted)).length)

/-- The bulk `update` branch: sanitize, validate a supplied `services` list
against the current service list (no singular-service merge here), then
`updateMany`. -/
def bulkUpdate (store : List Patient) (ids : List Nat) (upd0 : UpdateInput) (c : Clock) :
    Except ApiError (List Patient × Nat) :=
  let upd := sanitizeUpdate upd0
  match upd.services with
  | some ss =>
    let bad := ss.filter (fun s => !validServices.contains s)
    if bad ≠ [] then .error (.invalidServices bad)
    else .ok (bulkUpdateApply store ids upd c)
  | none => .ok (bulkUpdateApply store ids upd c)

/-! ## List, search, export, statistics -/

/-- A truthy optional string parameter: absent and empty string both count as
not supplied (JS falsiness). -/
def truthyOpt : Option String → Option String
  | some s => if s == "" then none else some s
  | none => none

/-- The value held by `query.$or` in the list/export query objects. -/
inductive OrClause where
  | byService (s : String)
  | bySearch (s : String)
deriving Repr, DecidableEq

/-- The query object the list and export handlers build. -/
structure ListQuery where
  excludeDeleted : Bool
  status : Option String
  familyGroup : Option String
  orClause : Option OrClause
  createdFrom : Option Nat
  createdTo : Option Nat
deriving Repr, DecidableEq

/-- The recognized query parameters of GET /api/patients (pagination and sort
reorder and truncate the filtered list and are out of scope). -/
structure ListParams where
  status : Option String := none
  service : Option String := none
  services : Option String := none
  familyGroup : Option String := none
  search : Option String := none
  includeDeleted : String := "false"
  dateFrom : Option Nat := none
  dateTo : Option Nat := none
deriving Repr, DecidableEq

/-- `endDate.setHours(23, 59, 59, 999)`: the inclusive end of the day starting
at `d`, at millisecond resolution. -/
def endOfDay (d : Nat) : Nat := d + 86399999

/-- The `service || services` target of the list endpoint's service filter. -/
def serviceParam (ps : ListParams) : Option String :=
  (truthyOpt ps.service).orElse (fun _ => truthyOpt ps.services)

/-- The effective free-text search of the list endpoint: supplied, truthy, and
non-blank after trimming. -/
def searchParam (ps : ListParams) : Option String :=
  match truthyOpt ps.search with
  | some s => if strTrim s != "" then some (strTrim s) else none
  | none => none

/-- GET /api/patients query building.  The source assigns `query.$or` once for
the service filter and assigns it again for the free-text search, so a search
replaces the service clause. -/
def buildListQuery (ps : ListParams) : ListQuery :=
  let q0 : ListQuery := ⟨ps.includeDeleted != "true", none, none, none, none, none⟩
  let q1 := match truthyOpt ps.status with
    | some st => if st != "all" then { q0 with status := some st } else q0
    | none => q0
  let q2 := match serviceParam ps with
    | some sv => { q1 with orClause := some (.byService sv) }
    | none => q1
  let q3 := match truthyOpt ps.familyGroup with
    | some fg => if fg != "all" then { q2 with familyGroup := some fg } else q2
    | none => q2
  let q4 := match searchParam ps with
    | some s => { q3 with orClause := some (.bySearch s) }
    | none => q3
  { q4 with createdFrom := ps.dateFrom, createdTo := ps.dateTo.map endOfDay }

/-- The free-text `$or`: case-insensitive name match, or the digit-stripped
search string occurring in `tel` (a search with no digits strips to the empty
pattern, which matches every phone, as an empty regex does). -/
def textSearchMatch (s : String) (p : Patient) : Bool :=
  occursCI s p.name || occursIn (stripNonDigits s) p.tel

/-- Evaluation of the `$or` clause against one record: the service clause
matches the legacy singular field or membership in the services array. -/
def matchesOrClause : OrClause → Patient → Bool
  | .byService sv, p => p.service == some sv || p.services.contains sv
  | .bySearch s, p => textSearchMatch s p

/-- Evaluation of a list/export query object against one record. -/
def matchesListQuery (q : ListQuery) (p : Patient) : Bool :=
  (!q.excludeDeleted || !p.isDeleted) &&
  (match q.status with | some st => p.status == st | none => true) &&
  (match q.familyGroup with | some fg => p.familyGroup == fg | none => true) &&
  (match q.orClause with | some oc => matchesOrClause oc p | none => true) &&
  (match q.createdFrom with | some a => decide (a ≤ p.createdAt) | none => true) &&
  (match q.createdTo with | some b => decide (p.createdAt ≤ b) | none => true)

/-- GET /api/patients: the records matching the built query. -/
def listPatients (store : List Patient) (ps : ListParams) : List Patient :=
  store.filter (matchesListQuery (buildListQuery ps))

/-- The filters object of POST /api/search. -/
structure SearchFilters where
  status : Option String := none
  service : Option String := none
  familyGroup : Option String := none
  dateFrom : Option Nat := none
  dateTo : Option Nat := none
deriving Repr, DecidableEq

/-- POST /api/search `searchQuery`: always excludes deleted records, always
requires the free-text `$or`, and pushes a supplied service filter as an
`$and` conjunct; status and familyGroup ignore the `'all'` wildcard. -/
def matchesSearchQuery (q : String) (f : SearchFilters) (p : Patient) : Bool :=
  !p.isDeleted &&
  textSearchMatch (strTrim q) p &&
  (match truthyOpt f.status with
   | some st => if st != "all" then p.status == st else true
   | none => true) &&
  (match truthyOpt f.service with
   | some sv => p.service == some sv || p.services.contains sv
   | none => true) &&
  (match truthyOpt f.familyGroup with
   | some fg => if fg != "all" then p.familyGroup == fg else true
   | none => true) &&
  (match f.dateFrom with | some a => decide (a ≤ p.createdAt) | none => true) &&
  (match f.dateTo with | some b => decide (p.createdAt ≤ endOfDay b) | none => true)

/-- POST /api/search: 400 when the query is blank, else the matching records
(sorting and the result cap reorder and truncate, preserving membership). -/
def searchPatients (store : List Patient) (q : String) (f : SearchFilters) :
    Except ApiError (List Patient) :=
  if strTrim q == "" then .error .missingFields
  else .ok (store.filter (matchesSearchQuery q f))

/-- GET /api/export query build: like the list endpoint but with no free-text
search parameter, so the service `$or` is never overwritten. -/
def buildExportQuery (status service familyGroup : Option String) (includeDeleted : String)
    (dateFrom dateTo : Option Nat) : ListQuery :=
  let q0 : ListQuery := ⟨includeDeleted != "true", none, none, none, none, none⟩
  let q1 := match truthyOpt status with
    | some st => if st != "all" then { q0 with status := some st } else q0
    | none => q0
  let q2 := match truthyOpt service with
    | some sv => { q1 with orClause := some (.byService sv) }
    | none => q1
  let q3 := match truthyOpt familyGroup with
    | some fg => if fg != "all" then { q2 with familyGroup := some fg } else q2
    | none => q2
  { q3 with createdFrom := dateFrom, createdTo := dateTo.map endOfDay }

/-- GET /api/export: the records matching the export query. -/
def exportPatients (store : List Patient) (status service familyGroup : Option String)
    (includeDeleted : String) (dateFrom dateTo : Option Nat) : List Patient :=
  store.filter
    (matchesListQuery (buildExportQuery status service familyGroup includeDeleted dateFrom dateTo))

/-- The `$project`/`$cond` of the service-distribution aggregation: the
`services` array when non-empty, else the wrapped legacy `service` when set. -/
def allServicesOf (p : Patient) : List String :=
  if p.services.length > 0 then p.services
  else match p.service with
    | some sv => [sv]
    | none => []

/-- Occurrences of one service among a record's unwound service rows. -/
def countOcc (s : String) (l : List String) : Nat :=
  (l.filter (fun x => x == s)).length

/-- GET /api/stats service distribution: `$match` drops deleted records,
`$unwind` emits one row per service occurrence, `$group` counts rows per
service value. -/
def serviceDistCount (store : List Patient) (s : String) : Nat :=
  ((store.filter (fun p => !p.isDeleted)).map (fun p => countOcc s (allServicesOf p))).sum

/-! ## Store invariants used as hypotheses -/

/-- A persisted record as the API produces it: schema-valid, with `name` and
`tel` already whitespace-normalized by the save that stored it. -/
def wellFormedPatient (p : Patient) : Bool :=
  schemaValidate p && p.name == collapseWs p.name && p.tel == collapseWs p.tel &&
  p.service == none

/-- No other record shares this record's `tel` (the unique-index invariant). -/
def telUniqueFor (store : List Patient) (p : Patient) : Bool :=
  store.all (fun r => r.id == p.id || r.tel != p.tel)

/-- Did the operation fail with conflict semantics (HTTP 409)? -/
def is409 : Except ApiError Patient → Bool
  | .error e => e.httpStatus == 409
  | .ok _ => false

/-! ## Sample data for concrete counterexamples and witnesses -/

/-- A fixed clock reading used by the concrete instances below. -/
def sampleClock : Clock := ⟨1000, "01/01/2025", "10:00:00"⟩

/-- A second, later clock reading. -/
def sampleClock2 : Clock := ⟨2000, "02/01/2025", "11:00:00"⟩

/-- A well-formed stored record. -/
def alice : Patient :=
  { id := 1, name := "Alice Smith", age := 30, sex := "Female", occupation := "",
    tel := "123-456-78", familyGroup := "ESDA", service := none,
    services := ["Gynaecology"], registrationDate := "31/12/2024",
    registrationTime := "09:00:00", status := "registered", diagnosis := "",
    labTests := [], treatmentPlan := "", completionDate := "", completionTime := "",
    createdAt := 5, lastModified := 5, modificationHistory := [⟨"created", 5, []⟩],
    isDeleted := false, deletedAt := none }

/-- A soft-deleted record holding the phone number `"12345678"`. -/
def aliceDeleted : Patient :=
  { alice with id := 3, tel := "12345678", isDeleted := true, status := "deleted",
               deletedAt := some 7 }

/-- A create payload whose `tel` spells the same digits as `alice.tel` without
punctuation. -/
def bobInput : CreateInput :=
  { name := some "Bob Jones", age := some 40, sex := some "Male",
    tel := some "12345678", familyGroup := some "ESDA",
    service := some "Gynaecology" }

/-- A create payload carrying the legacy service value `"Eye con"`. -/
def eyeConInput : CreateInput :=
  { name := some "John Doe", age := some 30, sex := some "Male",
    tel := some "123456789", familyGroup := some "ESDA",
    service := some "Eye con" }

/-- `bobInput` plus payload fields outside the create whitelist. -/
def bobJunkInput : CreateInput :=
  { bobInput with status := some "completed", isDeleted := some true,
                  diagnosis := some "pre-filled", treatmentPlan := some "pre-filled",
                  labTests := some ["Malaria"], completionDate := some "01/01/2020",
                  completionTime := some "00:00:00",
                  modificationHistory := some [⟨"deleted", 1, []⟩] }

/-- The record stored by creating `bobInput` (or `bobJunkInput`) into an empty
store under `sampleClock` with id 2. -/
def bobStored : Patient :=
  { id := 2, name := "Bob Jones", age := 40, sex := "Male", occupation := "",
    tel := "12345678", familyGroup := "ESDA", service := none,
    services := ["Gynaecology"], registrationDate := "01/01/2025",
    registrationTime := "10:00:00", status := "registered", diagnosis := "",
    labTests := [], treatmentPlan := "", completionDate := "", completionTime := "",
    createdAt := 1000, lastModified := 1000,
    modificationHistory := [⟨"created", 1000,
      ["name", "age", "sex", "occupation", "tel", "familyGroup", "status", "services"]⟩],
    isDeleted := false, deletedAt := none }

/-- The record produced by restoring `aliceDeleted` under `sampleClock`. -/
def aliceRestored : Patient :=
  { aliceDeleted with isDeleted := false, deletedAt := none, status := "registered",
                      lastModified := 1000,
                      modificationHistory := [⟨"created", 5, []⟩,
                                              ⟨"updated", 1000, ["restored"]⟩] }

/-! ## Theorems -/

theorem undouble_pair (r : List Char) :
    undoubleQuotes ('"' :: '"' :: r) = '"' :: undoubleQuotes r := by
  simp [undoubleQuotes]

theorem undouble_cons (c : Char) (r : List Char) (h : c ≠ '"') :
    undoubleQuotes (c :: r) = c :: undoubleQuotes r := by
  cases r with
  | nil => rfl
  | cons d t => simp [undoubleQuotes, h]

theorem undouble_double (l : List Char) : undoubleQuotes (doubleQuotes l) = l := by
  induction l with
  | nil => rfl
  | cons c t ih =>
    by_cases h : c = '"'
    · subst h
      rw [show doubleQuotes ('"' :: t) = '"' :: '"' :: doubleQuotes t from rfl,
        undouble_pair, ih]
    · rw [show doubleQuotes (c :: t) = c :: doubleQuotes t from by simp [doubleQuotes, h],
        undouble_cons _ _ h, ih]

theorem csv_cell_roundtrip (s : String) : parseCsvCell (escapeCsvField s) = s := by
  by_cases h : needsQuote s
  · have hesc : escapeCsvField s = String.mk ('"' :: (doubleQuotes s.data ++ ['"'])) := by
      simp [escapeCsvField, h]
    rw [hesc]
    unfold parseCsvCell
    rw [if_pos]
    · show String.mk (undoubleQuotes (('"' :: (doubleQuotes s.data ++ ['"'])).drop 1).dropLast) = s
      have h1 : (('"' :: (doubleQuotes s.data ++ ['"'])).drop 1).dropLast = doubleQuotes s.data := by
        simp
      rw [h1, undouble_double]
    · refine ⟨rfl, ?_, ?_⟩
      · show ('"' :: (doubleQuotes s.data ++ ['"'])).getLast? = some '"'
        rw [show ('"' :: (doubleQuotes s.data ++ ['"'])) =
            ('"' :: doubleQuotes s.data) ++ ['"'] from rfl]
        exact List.getLast?_concat _
      · show 2 ≤ ('"' :: (doubleQuotes s.data ++ ['"'])).length
        simp
  · have hesc : escapeCsvField s = s := by simp [escapeCsvField, h]
    rw [hesc]
    unfold parseCsvCell
    rw [if_neg]
    rintro ⟨h1, -, -⟩
    have hm : '"' ∈ s.data := by
      cases hd : s.data with
      | nil => rw [hd] at h1; simp at h1
      | cons c t =>
        rw [hd] at h1
        simp at h1
        subst h1
        exact List.mem_cons_self _ _
    have hq : needsQuote s = true := by
      simp [needsQuote, List.any_eq_true]
      exact ⟨'"', hm, by simp⟩
    exact h hq



/-! ## Helper lemmas -/

theorem schemaValidate_services_pos (p : Patient) (h : schemaValidate p = true) :
    0 < p.services.length := by
  unfold schemaValidate at h
  simp only [Bool.and_eq_true, decide_eq_true_eq] at h
  exact h.1.1.1.1.1.2

/-- Under a non-empty services list, the pre-save hook is exactly: refresh
`lastModified`, collapse `tel` and `name`, alias-map `services`, clear the
legacy `service`. -/
theorem preSaveHook_of_services_pos (p : Patient) (c : Clock) (h : 0 < p.services.length) :
    preSaveHook p c = { p with lastModified := c.now, tel := collapseWs p.tel,
                               name := collapseWs p.name,
                               services := p.services.map mapServiceAlias,
                               service := none } := by
  unfold preSaveHook
  rw [if_pos h]

theorem preSaveHook_isDeleted (p : Patient) (c : Clock) :
    (preSaveHook p c).isDeleted = p.isDeleted := by
  unfold preSaveHook
  dsimp only []
  repeat' split
  all_goals rfl

theorem preSaveHook_status (p : Patient) (c : Clock) :
    (preSaveHook p c).status = p.status := by
  unfold preSaveHook
  dsimp only []
  repeat' split
  all_goals rfl

/-- The pre-save hook touches only `name`, `tel`, `service`, `services`, and
`lastModified`; every other field is preserved. -/
theorem preSaveHook_preserves (p : Patient) (c : Clock) :
    (preSaveHook p c).id = p.id ∧ (preSaveHook p c).age = p.age ∧
    (preSaveHook p c).sex = p.sex ∧ (preSaveHook p c).occupation = p.occupation ∧
    (preSaveHook p c).familyGroup = p.familyGroup ∧
    (preSaveHook p c).registrationDate = p.registrationDate ∧
    (preSaveHook p c).registrationTime = p.registrationTime ∧
    (preSaveHook p c).status = p.status ∧ (preSaveHook p c).diagnosis = p.diagnosis ∧
    (preSaveHook p c).labTests = p.labTests ∧
    (preSaveHook p c).treatmentPlan = p.treatmentPlan ∧
    (preSaveHook p c).completionDate = p.completionDate ∧
    (preSaveHook p c).completionTime = p.completionTime ∧
    (preSaveHook p c).createdAt = p.createdAt ∧
    (preSaveHook p c).modificationHistory = p.modificationHistory ∧
    (preSaveHook p c).isDeleted = p.isDeleted ∧
    (preSaveHook p c).deletedAt = p.deletedAt := by
  unfold preSaveHook
  dsimp only []
  repeat' split
  all_goals
    exact ⟨rfl, rfl, rfl, rfl, rfl, rfl, rfl, rfl, rfl, rfl, rfl, rfl, rfl, rfl, rfl,
      rfl, rfl⟩

/-! ## Claims -/

/-- C9: `escapeCsvField` quotes any field containing a comma, double-quote, or
newline and doubles internal double-quotes, and parsing the produced CSV cell
recovers the original string exactly — in particular a `name` containing such
characters round-trips through the CSV export. -/
theorem C9_csv_export_roundtrip (s : String) : parseCsvCell (escapeCsvField s) = s :=
  csv_cell_roundtrip s

/-- C1 counterexample: a create payload with legacy `service = "Eye con"` is
rejected by the create handler with the 400 invalid-services error — the stored
`services = ["Eye consultation"]` the claim promises never appears, because the
route-level service validation runs before the pre-save hook that performs the
alias rewriting. -/
theorem C1_counterexample :
    createPatient [] eyeConInput sampleClock 1 =
      ([], Except.error (ApiError.invalidServices ["Eye con"])) ∧
    (ApiError.invalidServices ["Eye con"]).httpStatus = 400 := by
  decide

/-- C1 amended: the alias rewriting `"Eye con"` → `"Eye consultation"` exists
in the persistence-layer hooks (`mapServiceAlias`), but no endpoint payload
ever reaches it.  On create and on update, a payload carrying `"Eye con"` — as
the singular `service` or inside the `services` list — is rejected with a 400
invalid-services error before the hooks run.  On bulk-update, a `services`
list containing `"Eye con"` is likewise rejected, while a singular
`service = "Eye con"` is neither validated nor rewritten: `updateMany`
bypasses the pre-update middleware, so the legacy value is stored verbatim in
the `service` field and `services` is left untouched.  On no path does
submitting `"Eye con"` yield stored `services = ["Eye consultation"]`. -/
theorem C1_amended :
    (mapServiceAlias "Eye con" = "Eye consultation") ∧
    (∀ (store : List Patient) (inp : CreateInput) (c : Clock) (newId : Nat),
      (sanitizeCreate inp).service = some "Eye con" →
      (sanitizeCreate inp).services = none →
      requiredPresent (sanitizeCreate inp) = true →
      createPatient store inp c newId = (store, .error (.invalidServices ["Eye con"]))) ∧
    (∀ (store : List Patient) (inp : CreateInput) (c : Clock) (newId : Nat)
       (ss : List String),
      (sanitizeCreate inp).services = some ss → "Eye con" ∈ ss →
      requiredPresent (sanitizeCreate inp) = true →
      createPatient store inp c newId = (store, .error (.invalidServices
        ((ss.filter (fun s => strTrim s ≠ "")).filter
          (fun s => !validServices.contains s)))) ∧
      "Eye con" ∈ (ss.filter (fun s => strTrim s ≠ "")).filter
        (fun s => !validServices.contains s)) ∧
    (∀ (store : List Patient) (id : Nat) (inp : UpdateInput) (c : Clock) (cur : Patient),
      store.find? (fun r => r.id == id) = some cur → cur.isDeleted = false →
      (sanitizeUpdate inp).service = some "Eye con" →
      (sanitizeUpdate inp).services = none →
      updatePatient store id inp c = (store, .error (.invalidServices ["Eye con"]))) ∧
    (∀ (store : List Patient) (id : Nat) (inp : UpdateInput) (c : Clock) (cur : Patient)
       (ss : List String),
      store.find? (fun r => r.id == id) = some cur → cur.isDeleted = false →
      (sanitizeUpdate inp).services = some ss → "Eye con" ∈ ss →
      updatePatient store id inp c = (store, .error (.invalidServices
        ((ss.filter (fun s => strTrim s ≠ "")).filter
          (fun s => !validServices.contains s)))) ∧
      "Eye con" ∈ (ss.filter (fun s => strTrim s ≠ "")).filter
        (fun s => !validServices.contains s)) ∧
    (∀ (store : List Patient) (ids : List Nat) (upd : UpdateInput) (c : Clock)
       (ss : List String),
      (sanitizeUpdate upd).services = some ss → "Eye con" ∈ ss →
      bulkUpdate store ids upd c =
        .error (.invalidServices (ss.filter (fun s => !validServices.contains s)))) ∧
    (∀ (store : List Patient) (ids : List Nat) (upd : UpdateInput) (c : Clock),
      (sanitizeUpdate upd).services = none →
      (sanitizeUpdate upd).service = some "Eye con" →
      bulkUpdate store ids upd c =
        .ok (bulkUpdateApply store ids (sanitizeUpdate upd) c) ∧
      (∀ r : Patient,
        (applyBulkSet r (sanitizeUpdate upd) c).service = some "Eye con" ∧
        (applyBulkSet r (sanitizeUpdate upd) c).services = r.services) ∧
      (∀ r ∈ store, (ids.contains r.id && !r.isDeleted) = true →
        applyBulkSet r (sanitizeUpdate upd) c ∈
          (bulkUpdateApply store ids (sanitizeUpdate upd) c).1)) := by
  refine ⟨by decide, ?_, ?_, ?_, ?_, ?_, ?_⟩
  · intro store inp c newId hs hss hreq
    have hres : resolveServices (sanitizeCreate inp) = some ["Eye con"] := by
      unfold resolveServices resolveSingle
      simp only [hss, hs]
      decide
    have hbad : (["Eye con"].filter (fun s => !validServices.contains s)) = ["Eye con"] := by
      decide
    unfold createPatient
    simp only [hres, hreq, Bool.not_true, Bool.false_eq_true, if_false, hbad]
    rw [if_pos (by decide : (["Eye con"] : List String) ≠ [])]
  · intro store inp c newId ss hss hmem hreq
    have hpos : 0 < ss.length := List.length_pos.mpr (List.ne_nil_of_mem hmem)
    have hres : resolveServices (sanitizeCreate inp) =
        some (ss.filter (fun s => strTrim s ≠ "")) := by
      unfold resolveServices
      simp only [hss]
      rw [if_pos hpos]
    have hmem2 : "Eye con" ∈ ss.filter (fun s => strTrim s ≠ "") :=
      List.mem_filter.mpr ⟨hmem, by decide⟩
    have hmem3 : "Eye con" ∈ (ss.filter (fun s => strTrim s ≠ "")).filter
        (fun s => !validServices.contains s) :=
      List.mem_filter.mpr ⟨hmem2, by decide⟩
    refine ⟨?_, hmem3⟩
    unfold createPatient
    simp only [hres, hreq, Bool.not_true, Bool.false_eq_true, if_false]
    rw [if_pos (List.ne_nil_of_mem hmem3)]
  · intro store id inp c cur hfind hdel hs hss
    have hmerge : mergeUpdateServices (sanitizeUpdate inp) =
        { sanitizeUpdate inp with services := some ["Eye con"], service := none } := by
      unfold mergeUpdateServices mergeSingleService
      simp only [hss, hs]
      rw [if_pos (by decide : strTrim "Eye con" ≠ "")]
      rw [show strTrim "Eye con" = "Eye con" from by decide]
    unfold updatePatient
    simp only [hfind, hdel, Bool.false_eq_true, if_false, hmerge]
    have hbad : (["Eye con"].filter (fun s => !validServices.contains s)) = ["Eye con"] := by
      decide
    simp only [hbad]
    rw [if_pos (by decide : (["Eye con"] : List String) ≠ [])]
  · intro store id inp c cur ss hfind hdel hss hmem
    have hpos : 0 < ss.length := List.length_pos.mpr (List.ne_nil_of_mem hmem)
    have hmerge : mergeUpdateServices (sanitizeUpdate inp) = { sanitizeUpdate inp with services := some (ss.filter (fun s => strTrim s ≠ "")), service := none } := by
      unfold mergeUpdateServices
      simp only [hss]
      rw [if_pos hpos]
    have hmem2 : "Eye con" ∈ ss.filter (fun s => strTrim s ≠ "") :=
      List.mem_filter.mpr ⟨hmem, by decide⟩
    have hmem3 : "Eye con" ∈ (ss.filter (fun s => strTrim s ≠ "")).filter
        (fun s => !validServices.contains s) :=
      List.mem_filter.mpr ⟨hmem2, by decide⟩
    refine ⟨?_, hmem3⟩
    unfold updatePatient
    simp only [hfind, hdel, Bool.false_eq_true, if_false, hmerge]
    rw [if_pos (List.ne_nil_of_mem hmem3)]
  · intro store ids upd c ss hss hmem
    unfold bulkUpdate
    simp only [hss]
    have hne : ss.filter (fun s => !validServices.contains s) ≠ [] :=
      List.ne_nil_of_mem (List.mem_filter.mpr ⟨hmem, by decide⟩)
    rw [if_pos hne]
  · intro store ids upd c hss hs
    refine ⟨?_, ?_, ?_⟩
    · unfold bulkUpdate
      simp only [hss]
    · intro r
      constructor
      · unfold applyBulkSet
        simp only [hs]
      · unfold applyBulkSet
        simp only [hss]
        rfl
    · intro r hr hmatch
      unfold bulkUpdateApply
      dsimp only []
      exact List.mem_map.mpr ⟨r, hr, by rw [if_pos hmatch]⟩

/-- Witness for C1 amended: the four rejections and the bulk-singular verbatim
passthrough at concrete inputs. -/
theorem C1_amended_witness :
    createPatient [] eyeConInput sampleClock 1 =
      ([], Except.error (ApiError.invalidServices ["Eye con"])) ∧
    createPatient [] { eyeConInput with service := none, services := some ["Eye con", "Gynaecology"] } sampleClock 1 =
      ([], Except.error (ApiError.invalidServices ["Eye con"])) ∧
    updatePatient [alice] 1 { service := some "Eye con" } sampleClock =
      ([alice], Except.error (ApiError.invalidServices ["Eye con"])) ∧
    updatePatient [alice] 1 { services := some ["Eye con", "Gynaecology"] } sampleClock =
      ([alice], Except.error (ApiError.invalidServices ["Eye con"])) ∧
    bulkUpdate [alice] [1] { services := some ["Eye con"] } sampleClock =
      Except.error (ApiError.invalidServices ["Eye con"]) ∧
    bulkUpdate [alice] [1] { service := some "Eye con" } sampleClock =
      Except.ok (bulkUpdateApply [alice] [1]
        (sanitizeUpdate { service := some "Eye con" }) sampleClock) ∧
    (applyBulkSet alice (sanitizeUpdate { service := some "Eye con" })
      sampleClock).service = some "Eye con" := by
  refine ⟨C1_amended.2.1 [] eyeConInput sampleClock 1 (by decide) (by decide) (by decide),
          ?_,
          C1_amended.2.2.2.1 [alice] 1 { service := some "Eye con" } sampleClock alice
            (by decide) (by decide) (by decide) (by decide),
          ?_, ?_, ?_, ?_⟩
  · have h := (C1_amended.2.2.1 [] { eyeConInput with service := none, services := some ["Eye con", "Gynaecology"] } sampleClock 1 ["Eye con", "Gynaecology"] (by decide) (by decide) (by decide)).1
    rw [h]
    decide
  · have h := (C1_amended.2.2.2.2.1 [alice] 1 { services := some ["Eye con", "Gynaecology"] } sampleClock alice ["Eye con", "Gynaecology"] (by decide) (by decide) (by decide) (by decide)).1
    rw [h]
    decide
  · have h := C1_amended.2.2.2.2.2.1 [alice] [1] { services := some ["Eye con"] }
      sampleClock ["Eye con"] (by decide) (by decide)
    rw [h]
    decide
  · exact (C1_amended.2.2.2.2.2.2 [alice] [1] { service := some "Eye con" } sampleClock
      (by decide) (by decide)).1
  · exact ((C1_amended.2.2.2.2.2.2 [alice] [1] { service := some "Eye con" } sampleClock
      (by decide) (by decide)).2.1 alice).1

/-- C2 counterexample: (1) two differently punctuated spellings of the same
digit sequence do not conflict — with non-deleted `alice` holding
`"123-456-78"`, creating with `tel = "12345678"` succeeds; (2) a phone number
held only by a soft-deleted record does block creation: the handler's
non-deleted check passes, but the unique index on `tel` rejects with 409. -/
theorem C2_counterexample :
    (stripNonDigits alice.tel = stripNonDigits "12345678" ∧ alice.isDeleted = false ∧
      exceptOk (createPatient [alice] bobInput sampleClock 2).2 = true) ∧
    (aliceDeleted.isDeleted = true ∧ aliceDeleted.tel = "12345678" ∧
      (createPatient [aliceDeleted] bobInput sampleClock 4).2 =
        Except.error ApiError.duplicateKey ∧
      ApiError.duplicateKey.httpStatus = 409) := by
  decide

/-- C2 amended: with an otherwise-valid create payload, create fails with
conflict semantics (409) iff an existing non-deleted record holds exactly the
submitted (trimmed) `tel` string — the handler's duplicate-phone check — or
any existing record at all, soft-deleted ones included, holds exactly the
whitespace-collapsed `tel` string, via the unique index at save time.
Comparison is string equality; punctuation is not normalized away. -/
theorem C2_amended (store : List Patient) (inp : CreateInput) (c : Clock) (newId : Nat)
    (svs : List String)
    (hres : resolveServices (sanitizeCreate inp) = some svs)
    (hreq : requiredPresent (sanitizeCreate inp) = true)
    (hval : svs.filter (fun s => !validServices.contains s) = [])
    (hschema : schemaValidate (buildNewPatient (sanitizeCreate inp) svs c newId) = true) :
    is409 (createPatient store inp c newId).2 =
      (hasDupNonDeleted store ((sanitizeCreate inp).tel.getD "") ||
       hasTelConflict store (collapseWs ((sanitizeCreate inp).tel.getD "")) newId) := by
  unfold createPatient
  simp only [hres, hreq, Bool.not_true, Bool.false_eq_true, if_false, hval]
  rw [if_neg (by simp : ¬(([] : List String) ≠ []))]
  cases hd : hasDupNonDeleted store ((sanitizeCreate inp).tel.getD "") with
  | true => simp [is409, ApiError.httpStatus]
  | false =>
    simp only [Bool.false_eq_true, if_false, Bool.false_or]
    have hpos : 0 < (buildNewPatient (sanitizeCreate inp) svs c newId).services.length :=
      schemaValidate_services_pos _ hschema
    unfold saveRecord
    simp only [hschema, Bool.not_true, Bool.false_eq_true, if_false]
    rw [preSaveHook_of_services_pos _ _ hpos]
    have hlen : (((buildNewPatient (sanitizeCreate inp) svs c newId).services.map
        mapServiceAlias).length == 0) = false := by
      simp only [List.length_map, beq_eq_false_iff_ne]
      omega
    simp only [hlen, Bool.false_eq_true, if_false]
    cases hc : hasTelConflict store
        (collapseWs ((sanitizeCreate inp).tel.getD "")) newId with
    | true =>
      rw [show hasTelConflict store
          (collapseWs (buildNewPatient (sanitizeCreate inp) svs c newId).tel)
          (buildNewPatient (sanitizeCreate inp) svs c newId).id =
          hasTelConflict store (collapseWs ((sanitizeCreate inp).tel.getD "")) newId from rfl,
        hc]
      simp [is409, ApiError.httpStatus]
    | false =>
      rw [show hasTelConflict store
          (collapseWs (buildNewPatient (sanitizeCreate inp) svs c newId).tel)
          (buildNewPatient (sanitizeCreate inp) svs c newId).id =
          hasTelConflict store (collapseWs ((sanitizeCreate inp).tel.getD "")) newId from rfl,
        hc]
      simp [is409]

/-- Witness for C2 amended: the soft-deleted-holder scenario, where the
right-hand side is true through the unique-index disjunct. -/
theorem C2_amended_witness :
    is409 (createPatient [aliceDeleted] bobInput sampleClock 4).2 =
      (hasDupNonDeleted [aliceDeleted] ((sanitizeCreate bobInput).tel.getD "") ||
       hasTelConflict [aliceDeleted]
         (collapseWs ((sanitizeCreate bobInput).tel.getD "")) 4) :=
  C2_amended [aliceDeleted] bobInput sampleClock 4 ["Gynaecology"] (by decide) (by decide)
    (by decide) (by decide)


/-- C3: updating `status` to `completed` sets the completion date/time exactly
when the record was not already completed; repeating the update on an
already-completed record leaves both fields unchanged but still refreshes
`lastModified` and appends another history entry tagged `completed`. -/
theorem C3_complete_sets_timestamps_once (store : List Patient) (id : Nat) (c : Clock)
    (cur : Patient)
    (hfind : store.find? (fun r => r.id == id) = some cur)
    (hdel : cur.isDeleted = false) :
    exceptOk (updatePatient store id { status := some "completed" } c).2 = true ∧
    ∀ q, (updatePatient store id { status := some "completed" } c).2 = .ok q →
      q.status = "completed" ∧
      q.completionDate = (if cur.status = "completed" then cur.completionDate
                          else c.dateString) ∧
      q.completionTime = (if cur.status = "completed" then cur.completionTime
                          else c.timeString) ∧
      q.lastModified = c.now ∧
      ∃ ch, q.modificationHistory = cur.modificationHistory ++ [⟨"completed", c.now, ch⟩] := by
  have hmerge : mergeUpdateServices (sanitizeUpdate ({ status := some "completed" } :
      UpdateInput)) = ({ status := some "completed" } : UpdateInput) := by decide
  have hval : updateValidate ({ status := some "completed" } : UpdateInput) = true := by decide
  have hdup : dupTelCheck store id cur ({ status := some "completed" } : UpdateInput) =
      false := rfl
  simp only [updatePatient, hfind, hdel, Bool.false_eq_true, if_false, hmerge]
  simp only [updateContinue, hdup, hval, Bool.not_true, Bool.false_eq_true, if_false]
  constructor
  · rfl
  · intro q hq
    injection hq with hq
    subst hq
    by_cases hst : cur.status = "completed"
    · simp [applyUpdate, appendHistory, hst]
    · simp [applyUpdate, appendHistory, hst]


/-- Witness for C3: completing the registered record `alice` succeeds. -/
theorem C3_witness :
    exceptOk (updatePatient [alice] 1 { status := some "completed" } sampleClock).2 = true :=
  (C3_complete_sets_timestamps_once [alice] 1 sampleClock alice (by decide) (by decide)).1

/-- C5: state guards reject invalid operations before any store mutation — an
ordinary update of a soft-deleted record fails with the 410 deleted error and
returns the store unchanged, a restore of a non-deleted record fails with the
400 not-deleted error and returns the store unchanged, and any successful
restore yields `isDeleted = false` and `status = "registered"`. -/
theorem C5_state_guards :
    (∀ (store : List Patient) (id : Nat) (inp : UpdateInput) (c : Clock) (cur : Patient),
      store.find? (fun r => r.id == id) = some cur → cur.isDeleted = true →
      updatePatient store id inp c = (store, .error .deletedPatient)) ∧
    (∀ (store : List Patient) (id : Nat) (c : Clock) (cur : Patient),
      store.find? (fun r => r.id == id) = some cur → cur.isDeleted = false →
      restorePatient store id c = (store, .error .notDeleted)) ∧
    (∀ (store s2 : List Patient) (id : Nat) (c : Clock) (q : Patient),
      restorePatient store id c = (s2, .ok q) →
      q.isDeleted = false ∧ q.status = "registered") := by
  refine ⟨?_, ?_, ?_⟩
  · intro store id inp c cur hfind hdel
    simp only [updatePatient, hfind, hdel, if_true]
  · intro store id c cur hfind hdel
    simp only [restorePatient, hfind, hdel, Bool.not_false, if_true]
  · intro store s2 id c q hres
    unfold restorePatient at hres
    cases hfind : store.find? (fun r => r.id == id) with
    | none => rw [hfind] at hres; simp at hres
    | some p =>
      simp only [hfind] at hres
      cases hd : p.isDeleted with
      | false => rw [hd] at hres; simp at hres
      | true =>
        rw [hd] at hres
        simp only [Bool.not_true, Bool.false_eq_true, if_false] at hres
        cases hsave : (saveRecord store { p with isDeleted := false, deletedAt := none, status := "registered" } c) with
        | error e => rw [hsave] at hres; simp at hres
        | ok q0 =>
          rw [hsave] at hres
          have hq : q = appendHistory q0 "updated" ["restored"] c := by
            have h2 := congrArg Prod.snd hres
            simpa using h2.symm
          have hq0 : q0 = preSaveHook { p with isDeleted := false, deletedAt := none, status := "registered" } c := by
            unfold saveRecord at hsave
            dsimp only [] at hsave
            split at hsave
            · exact absurd hsave (by simp)
            · split at hsave
              · exact absurd hsave (by simp)
              · split at hsave
                · exact absurd hsave (by simp)
                · injection hsave with h; exact h.symm
          subst hq
          subst hq0
          constructor
          · simpa [appendHistory] using preSaveHook_isDeleted { p with isDeleted := false, deletedAt := none, status := "registered" } c
          · simpa [appendHistory] using preSaveHook_status { p with isDeleted := false, deletedAt := none, status := "registered" } c

/-- Witness for C5: the three guards at concrete records. -/
theorem C5_witness :
    updatePatient [aliceDeleted] 3 { name := some "New Name" } sampleClock =
      ([aliceDeleted], Except.error ApiError.deletedPatient) ∧
    restorePatient [alice] 1 sampleClock = ([alice], Except.error ApiError.notDeleted) ∧
    restorePatient [aliceDeleted] 3 sampleClock = ([aliceRestored], Except.ok aliceRestored) ∧
    aliceRestored.isDeleted = false ∧ aliceRestored.status = "registered" := by
  have h3 := C5_state_guards.2.2 [aliceDeleted] [aliceRestored] 3 sampleClock aliceRestored
    (by decide)
  exact ⟨C5_state_guards.1 [aliceDeleted] 3 { name := some "New Name" } sampleClock
           aliceDeleted (by decide) (by decide),
         C5_state_guards.2.1 [alice] 1 sampleClock alice (by decide) (by decide),
         by decide, h3.1, h3.2⟩


/-- C6: bulk `complete` transitions exactly the targeted records currently in
`registered` state and not soft-deleted, giving them completion timestamps;
every other record — already completed, cancelled, or deleted, or not targeted
— is left unchanged; and the returned affected count is the number of records
actually modified, which is at most the requested set size. -/
theorem C6_bulk_complete (store : List Patient) (ids : List Nat) (c : Clock)
    (hnodup : (store.map Patient.id).Nodup) :
    (bulkComplete store ids c).1.length = store.length ∧
    (∀ (i : Nat) (h1 : i < store.length) (h2 : i < (bulkComplete store ids c).1.length),
      (bulkCompleteMatch ids (store.get ⟨i, h1⟩) = false →
        (bulkComplete store ids c).1.get ⟨i, h2⟩ = store.get ⟨i, h1⟩) ∧
      (bulkCompleteMatch ids (store.get ⟨i, h1⟩) = true →
        (bulkComplete store ids c).1.get ⟨i, h2⟩ = completeTransform (store.get ⟨i, h1⟩) c ∧
        ((bulkComplete store ids c).1.get ⟨i, h2⟩).status = "completed" ∧
        (bulkComplete store ids c).1.get ⟨i, h2⟩ ≠ store.get ⟨i, h1⟩)) ∧
    (bulkComplete store ids c).2 = (store.filter (bulkCompleteMatch ids)).length ∧
    (bulkComplete store ids c).2 ≤ ids.length := by
  refine ⟨by simp [bulkComplete], ?_, rfl, ?_⟩
  · intro i h1 h2
    simp only [List.get_eq_getElem]
    constructor
    · intro hm
      simp [bulkComplete, List.getElem_map, hm]
    · intro hm
      have hget : (bulkComplete store ids c).1[i] = completeTransform store[i] c := by
        simp [bulkComplete, List.getElem_map, hm]
      refine ⟨hget, by rw [hget]; rfl, ?_⟩
      rw [hget]
      intro heq
      have hst := congrArg Patient.status heq
      have hreg : store[i].status = "registered" := by
        unfold bulkCompleteMatch at hm
        simp only [Bool.and_eq_true, beq_iff_eq] at hm
        exact hm.1.2
      rw [show (completeTransform store[i] c).status = "completed" from rfl, hreg] at hst
      exact absurd hst (by decide)
  · have hsub : (store.filter (bulkCompleteMatch ids)).map Patient.id ⊆ ids := by
      intro a ha
      simp only [List.mem_map] at ha
      obtain ⟨r, hr, rfl⟩ := ha
      have hm := (List.mem_filter.mp hr).2
      unfold bulkCompleteMatch at hm
      simp only [Bool.and_eq_true] at hm
      have : ids.contains r.id = true := hm.1.1
      simpa using this
    have hnd : ((store.filter (bulkCompleteMatch ids)).map Patient.id).Nodup :=
      hnodup.sublist ((List.filter_sublist store).map Patient.id)
    have hlen : (store.filter (bulkCompleteMatch ids)).length =
        ((store.filter (bulkCompleteMatch ids)).map Patient.id).length :=
      (List.length_map _ _).symm
    show (store.filter (bulkCompleteMatch ids)).length ≤ ids.length
    rw [hlen, ← List.toFinset_card_of_nodup hnd]
    calc ((store.filter (bulkCompleteMatch ids)).map Patient.id).toFinset.card
        ≤ ids.toFinset.card := by
          apply Finset.card_le_card
          intro a ha
          exact List.mem_toFinset.mpr (hsub (List.mem_toFinset.mp ha))
      _ ≤ ids.length := ids.toFinset_card_le

/-- Witness for C6: completing `alice` (registered) and `aliceDeleted`
(deleted) affects at most the two requested ids. -/
theorem C6_witness :
    (bulkComplete [alice, aliceDeleted] [1, 3] sampleClock).2 ≤
      ([1, 3] : List Nat).length :=
  (C6_bulk_complete [alice, aliceDeleted] [1, 3] sampleClock (by decide)).2.2.2

/-- C8: the statistics service distribution counts each non-deleted record once
per service it holds — with record A carrying services [X, Y] and record B
carrying [Y] (X ≠ Y), the bucket for Y counts 2 and the bucket for X counts
1 — and a record with an empty services array but a legacy singular service
contributes to that service's bucket. -/
theorem C8_service_distribution (A B C : Patient) (X Y Z : String)
    (hA : A.isDeleted = false) (hB : B.isDeleted = false) (hC : C.isDeleted = false)
    (hAs : A.services = [X, Y]) (hBs : B.services = [Y]) (hXY : X ≠ Y)
    (hCs : C.services = []) (hCl : C.service = some Z) :
    serviceDistCount [A, B] Y = 2 ∧ serviceDistCount [A, B] X = 1 ∧
    serviceDistCount [C] Z = 1 := by
  have hXYb : (X == Y) = false := beq_eq_false_iff_ne.mpr hXY
  have hYXb : (Y == X) = false := beq_eq_false_iff_ne.mpr (Ne.symm hXY)
  unfold serviceDistCount allServicesOf countOcc
  simp [hA, hB, hC, hAs, hBs, hCs, hCl, List.filter, hXYb, hYXb]

/-- Witness for C8 at concrete records and services. -/
theorem C8_witness :
    serviceDistCount
      [{ alice with services := ["Eye consultation", "Gynaecology"] },
       { alice with id := 2, services := ["Gynaecology"] }] "Gynaecology" = 2 ∧
    serviceDistCount
      [{ alice with services := ["Eye consultation", "Gynaecology"] },
       { alice with id := 2, services := ["Gynaecology"] }] "Eye consultation" = 1 ∧
    serviceDistCount [{ alice with services := [], service := some "Dental consultation" }]
      "Dental consultation" = 1 :=
  C8_service_distribution
    { alice with services := ["Eye consultation", "Gynaecology"] }
    { alice with id := 2, services := ["Gynaecology"] }
    { alice with services := [], service := some "Dental consultation" }
    "Eye consultation" "Gynaecology" "Dental consultation"
    rfl rfl rfl rfl rfl (by decide) rfl rfl


/-- C10: the create handler ignores payload fields outside the whitelist
{name, age, sex, occupation, tel, familyGroup, service, services} — a stored
record always starts with status `registered`, `isDeleted = false`, empty
diagnosis, treatment plan, and lab tests, unset completion timestamps, no
`deletedAt`, and a single `created` history entry; and two payloads agreeing on
the whitelisted fields produce identical results whatever the other fields
hold. -/
theorem C10_create_whitelist (store : List Patient) (inp inp2 : CreateInput) (c : Clock)
    (newId : Nat) (s2 : List Patient) (q : Patient)
    (hok : createPatient store inp c newId = (s2, .ok q))
    (hagree : inp.name = inp2.name ∧ inp.age = inp2.age ∧ inp.sex = inp2.sex ∧
      inp.occupation = inp2.occupation ∧ inp.tel = inp2.tel ∧
      inp.familyGroup = inp2.familyGroup ∧ inp.service = inp2.service ∧
      inp.services = inp2.services) :
    q.status = "registered" ∧ q.isDeleted = false ∧ q.diagnosis = "" ∧
    q.treatmentPlan = "" ∧ q.labTests = [] ∧ q.completionDate = "" ∧
    q.completionTime = "" ∧ q.deletedAt = none ∧
    (∃ ch, q.modificationHistory = [⟨"created", c.now, ch⟩]) ∧
    createPatient store inp2 c newId = (s2, .ok q) := by
  obtain ⟨h1, h2, h3, h4, h5, h6, h7, h8⟩ := hagree
  have heq : createPatient store inp c newId = createPatient store inp2 c newId := by
    unfold createPatient resolveServices resolveSingle requiredPresent buildNewPatient
      sanitizeCreate
    rw [h1, h2, h3, h4, h5, h6, h7, h8]
  have hok0 := hok
  unfold createPatient at hok
  dsimp only [] at hok
  split at hok
  · simp at hok
  · rename_i svs hsvs
    split at hok
    · simp at hok
    · split at hok
      · simp at hok
      · split at hok
        · simp at hok
        · split at hok
          · simp at hok
          · rename_i q0 hsave
            have hq : q = appendHistory q0 "created"
                ["name", "age", "sex", "occupation", "tel", "familyGroup", "status",
                 "services"] c := by
              have hp := congrArg Prod.snd hok
              simpa using hp.symm
            have hq0 : q0 = preSaveHook
                (buildNewPatient (sanitizeCreate inp) svs c newId) c := by
              unfold saveRecord at hsave
              dsimp only [] at hsave
              split at hsave
              · exact absurd hsave (by simp)
              · split at hsave
                · exact absurd hsave (by simp)
                · split at hsave
                  · exact absurd hsave (by simp)
                  · injection hsave with h; exact h.symm
            have hpres := preSaveHook_preserves
              (buildNewPatient (sanitizeCreate inp) svs c newId) c
            subst hq
            subst hq0
            refine ⟨?_, ?_, ?_, ?_, ?_, ?_, ?_, ?_,
              ⟨["name", "age", "sex", "occupation", "tel", "familyGroup", "status",
                "services"], ?_⟩, ?_⟩
            · simpa [appendHistory] using hpres.2.2.2.2.2.2.2.1
            · simpa [appendHistory] using hpres.2.2.2.2.2.2.2.2.2.2.2.2.2.2.2.1
            · simpa [appendHistory] using hpres.2.2.2.2.2.2.2.2.1
            · simpa [appendHistory] using hpres.2.2.2.2.2.2.2.2.2.2.1
            · simpa [appendHistory] using hpres.2.2.2.2.2.2.2.2.2.1
            · simpa [appendHistory] using hpres.2.2.2.2.2.2.2.2.2.2.2.1
            · simpa [appendHistory] using hpres.2.2.2.2.2.2.2.2.2.2.2.2.1
            · simpa [appendHistory] using hpres.2.2.2.2.2.2.2.2.2.2.2.2.2.2.2.2
            · show (appendHistory _ _ _ c).modificationHistory = _
              have hmh := hpres.2.2.2.2.2.2.2.2.2.2.2.2.2.2.1
              simp only [appendHistory, hmh]
              rfl
            · rw [← heq]
              exact hok0

/-- Witness for C10: creating `bobJunkInput` (which carries status, isDeleted,
diagnosis, lab, completion, and history fields) stores exactly `bobStored`,
the same record `bobInput` produces. -/
theorem C10_witness :
    bobStored.status = "registered" ∧ bobStored.isDeleted = false ∧
    createPatient [] bobInput sampleClock 2 = ([bobStored], Except.ok bobStored) := by
  have h := C10_create_whitelist [] bobJunkInput bobInput sampleClock 2 [bobStored]
    bobStored (by decide) ⟨rfl, rfl, rfl, rfl, rfl, rfl, rfl, rfl⟩
  exact ⟨h.1, h.2.1, h.2.2.2.2.2.2.2.2.2⟩


theorem preSaveHook_name (p : Patient) (c : Clock) :
    (preSaveHook p c).name = collapseWs p.name := by
  unfold preSaveHook
  dsimp only []
  repeat' split
  all_goals rfl

theorem preSaveHook_tel (p : Patient) (c : Clock) :
    (preSaveHook p c).tel = collapseWs p.tel := by
  unfold preSaveHook
  dsimp only []
  repeat' split
  all_goals rfl

theorem mapServiceAlias_id_of_valid (ss : List String)
    (h : ss.all (fun s => validServices.contains s) = true) :
    ss.map mapServiceAlias = ss := by
  induction ss with
  | nil => rfl
  | cons a t ih =>
    simp only [List.all_cons, Bool.and_eq_true] at h
    have hne : (a == "Eye con") = false := by
      rw [beq_eq_false_iff_ne]
      intro hEq
      subst hEq
      exact absurd h.1 (by decide)
    have ha : mapServiceAlias a = a := by
      unfold mapServiceAlias
      rw [hne]
      rfl
    simp only [List.map_cons, ha, ih h.2]

/-- For a record whose `name`/`tel` are already collapsed, whose services are
all valid and non-empty, the pre-save hook only refreshes `lastModified` and
clears the legacy `service`. -/
theorem preSaveHook_wellFormed_eq (p : Patient) (c : Clock)
    (hpos : 0 < p.services.length)
    (hname : collapseWs p.name = p.name) (htel : collapseWs p.tel = p.tel)
    (hval : p.services.all (fun s => validServices.contains s) = true) :
    preSaveHook p c = { p with lastModified := c.now, service := none } := by
  rw [preSaveHook_of_services_pos _ _ hpos, hname, htel, mapServiceAlias_id_of_valid _ hval]

theorem telUniqueFor_no_conflict (store : List Patient) (p : Patient)
    (h : telUniqueFor store p = true) : hasTelConflict store p.tel p.id = false := by
  unfold telUniqueFor at h
  unfold hasTelConflict
  rw [List.all_eq_true] at h
  rw [List.any_eq_false]
  intro r hr
  have hd := h r hr
  simp only [Bool.or_eq_true] at hd
  cases hd with
  | inl h1 =>
    have : r.id = p.id := by simpa using h1
    simp [this]
  | inr h2 =>
    have : r.tel ≠ p.tel := by simpa using h2
    simp [this]

theorem find?_map_replace (store : List Patient) (p d : Patient) (id : Nat)
    (hfind : store.find? (fun r => r.id == id) = some p)
    (hdid : (d.id == id) = true) :
    (store.map (fun r => if r.id == id then d else r)).find? (fun r => r.id == id) =
      some d := by
  induction store with
  | nil => simp at hfind
  | cons a t ih =>
    cases hc : (a.id == id) with
    | true =>
      simp only [List.map_cons, hc, if_true, List.find?_cons, hdid]
    | false =>
      rw [List.find?_cons] at hfind
      simp only [hc] at hfind
      simp only [List.map_cons, hc, Bool.false_eq_true, if_false, List.find?_cons]
      exact ih hfind

theorem hasTelConflict_map_replace (store : List Patient) (d p : Patient) (id : Nat)
    (hid : d.id = p.id) (_htel : d.tel = p.tel) (hpid : p.id = id)
    (h : telUniqueFor store p = true) :
    hasTelConflict (store.map (fun r => if r.id == id then d else r)) p.tel p.id = false := by
  unfold hasTelConflict
  rw [List.any_map, List.any_eq_false]
  intro r hr
  simp only [Function.comp]
  by_cases hc : (r.id == id) = true
  · simp only [hc, if_true]
    simp [hid, bne_self_eq_false]
  · simp only [hc, if_false]
    have hd := (List.all_eq_true.mp h) r hr
    simp only [Bool.or_eq_true] at hd
    cases hd with
    | inl h1 =>
      have : r.id = p.id := by simpa using h1
      rw [this, hpid] at hc
      exact absurd (by simp) hc
    | inr h2 =>
      have : r.tel ≠ p.tel := by simpa using h2
      simp [this]

theorem schemaValidate_status_change (p : Patient) (st : String) (b : Bool)
    (da : Option Nat) (hsv : schemaValidate p = true)
    (hst : validStatuses.contains st = true) :
    schemaValidate { p with isDeleted := b, deletedAt := da, status := st } = true := by
  unfold schemaValidate at hsv ⊢
  simp only [Bool.and_eq_true] at hsv ⊢
  obtain ⟨⟨⟨⟨⟨⟨⟨⟨⟨⟨⟨c1, c2⟩, c3⟩, c4⟩, c5⟩, c6⟩, c7⟩, c8⟩, c9⟩, c10⟩, c11⟩, c12⟩ := hsv
  exact ⟨⟨⟨⟨⟨⟨⟨⟨⟨⟨⟨c1, c2⟩, c3⟩, c4⟩, c5⟩, c6⟩, c7⟩, c8⟩, hst⟩, c10⟩, c11⟩, c12⟩

/-- `save()` succeeds and yields the hook-normalized record whenever schema
validation passes and no other record holds the normalized `tel`. -/
theorem saveRecord_ok (store : List Patient) (p : Patient) (c : Clock)
    (hsv : schemaValidate p = true)
    (hconf : hasTelConflict store (collapseWs p.tel) p.id = false) :
    saveRecord store p c = .ok (preSaveHook p c) := by
  have hpos := schemaValidate_services_pos p hsv
  have hlen : ((preSaveHook p c).services.length == 0) = false := by
    rw [preSaveHook_of_services_pos _ _ hpos]
    simp only [List.length_map, beq_eq_false_iff_ne]
    omega
  have htel : (preSaveHook p c).tel = collapseWs p.tel := preSaveHook_tel p c
  unfold saveRecord
  dsimp only []
  rw [show (!schemaValidate p) = false from by simp [hsv]]
  simp only [Bool.false_eq_true, if_false]
  rw [hlen]
  simp only [Bool.false_eq_true, if_false]
  rw [htel, hconf]
  simp only [Bool.false_eq_true, if_false]


/-- C7: soft-deleting a persisted record and then restoring it yields
`status = "registered"`, `isDeleted = false`, no `deletedAt`, every other
stored field exactly as before the delete, and the modification history
preserved append-only: exactly the `deleted` entry and the `updated` (restore)
entry are appended, nothing lost or rewritten. -/
theorem C7_delete_restore_roundtrip (store : List Patient) (id : Nat) (c1 c2 : Clock)
    (p : Patient)
    (hfind : store.find? (fun r => r.id == id) = some p)
    (hwf : wellFormedPatient p = true)
    (huniq : telUniqueFor store p = true) :
    ∃ s1 d, softDeletePatient store id c1 = (s1, .ok d) ∧
      ∃ s2 q, restorePatient s1 id c2 = (s2, .ok q) ∧
        q.status = "registered" ∧ q.isDeleted = false ∧ q.deletedAt = none ∧
        q.name = p.name ∧ q.age = p.age ∧ q.sex = p.sex ∧
        q.occupation = p.occupation ∧ q.tel = p.tel ∧ q.familyGroup = p.familyGroup ∧
        q.service = p.service ∧ q.services = p.services ∧
        q.registrationDate = p.registrationDate ∧
        q.registrationTime = p.registrationTime ∧ q.diagnosis = p.diagnosis ∧
        q.labTests = p.labTests ∧ q.treatmentPlan = p.treatmentPlan ∧
        q.completionDate = p.completionDate ∧ q.completionTime = p.completionTime ∧
        q.createdAt = p.createdAt ∧
        q.modificationHistory = p.modificationHistory ++
          [(HistoryEntry.mk "deleted" c1.now ["deletedAt"]), (HistoryEntry.mk "updated" c2.now ["restored"])] := by
  unfold wellFormedPatient at hwf
  simp only [Bool.and_eq_true] at hwf
  have hsv : schemaValidate p = true := hwf.1.1.1
  have hname : collapseWs p.name = p.name := (eq_of_beq hwf.1.1.2).symm
  have htel : collapseWs p.tel = p.tel := (eq_of_beq hwf.1.2).symm
  have hsvc : p.service = none := eq_of_beq hwf.2
  have hpid : (p.id == id) = true := by simpa using List.find?_some hfind
  have hpid2 : p.id = id := by simpa using hpid
  have hpos : 0 < p.services.length := schemaValidate_services_pos p hsv
  have hvalid : p.services.all (fun s => validServices.contains s) = true := by
    unfold schemaValidate at hsv
    simp only [Bool.and_eq_true] at hsv
    exact hsv.1.1.1.1.2
  have hsv1 : schemaValidate { p with isDeleted := true, deletedAt := some c1.now, status := "deleted" } = true :=
    schemaValidate_status_change p "deleted" true (some c1.now) hsv (by decide)
  have hconf1 : hasTelConflict store (collapseWs p.tel) p.id = false := by
    rw [htel]
    exact telUniqueFor_no_conflict store p huniq
  have hsave1 : saveRecord store { p with isDeleted := true, deletedAt := some c1.now, status := "deleted" } c1 = .ok (preSaveHook { p with isDeleted := true, deletedAt := some c1.now, status := "deleted" } c1) :=
    saveRecord_ok store _ c1 hsv1 hconf1
  have hhook1 : preSaveHook { p with isDeleted := true, deletedAt := some c1.now, status := "deleted" } c1 = { p with isDeleted := true, deletedAt := some c1.now, status := "deleted", lastModified := c1.now, service := none } :=
    preSaveHook_wellFormed_eq _ c1 hpos hname htel hvalid
  have hstep1 : softDeletePatient store id c1 = (store.map (fun r => if r.id == id then { p with isDeleted := true, deletedAt := some c1.now, status := "deleted", lastModified := c1.now, service := none, modificationHistory := p.modificationHistory ++ [(HistoryEntry.mk "deleted" c1.now ["deletedAt"])] } else r), .ok { p with isDeleted := true, deletedAt := some c1.now, status := "deleted", lastModified := c1.now, service := none, modificationHistory := p.modificationHistory ++ [(HistoryEntry.mk "deleted" c1.now ["deletedAt"])] }) := by
    unfold softDeletePatient
    simp only [hfind]
    rw [hsave1]
    dsimp only []
    rw [hhook1]
    rfl
  refine ⟨_, _, hstep1, ?_⟩
  have hfind2 : (store.map (fun r => if r.id == id then { p with isDeleted := true, deletedAt := some c1.now, status := "deleted", lastModified := c1.now, service := none, modificationHistory := p.modificationHistory ++ [(HistoryEntry.mk "deleted" c1.now ["deletedAt"])] } else r)).find? (fun r => r.id == id) = some { p with isDeleted := true, deletedAt := some c1.now, status := "deleted", lastModified := c1.now, service := none, modificationHistory := p.modificationHistory ++ [(HistoryEntry.mk "deleted" c1.now ["deletedAt"])] } :=
    find?_map_replace store p _ id hfind hpid
  have hsvD : schemaValidate { p with isDeleted := true, deletedAt := some c1.now, status := "deleted", lastModified := c1.now, service := none, modificationHistory := p.modificationHistory ++ [(HistoryEntry.mk "deleted" c1.now ["deletedAt"])] } = true :=
    schemaValidate_status_change p "deleted" true (some c1.now) hsv (by decide)
  have hsv2 : schemaValidate { { p with isDeleted := true, deletedAt := some c1.now, status := "deleted", lastModified := c1.now, service := none, modificationHistory := p.modificationHistory ++ [(HistoryEntry.mk "deleted" c1.now ["deletedAt"])] } with isDeleted := false, deletedAt := none, status := "registered" } = true :=
    schemaValidate_status_change _ "registered" false none hsvD (by decide)
  have hmapconf : hasTelConflict (store.map (fun r => if r.id == id then { p with isDeleted := true, deletedAt := some c1.now, status := "deleted", lastModified := c1.now, service := none, modificationHistory := p.modificationHistory ++ [(HistoryEntry.mk "deleted" c1.now ["deletedAt"])] } else r)) p.tel p.id = false :=
    hasTelConflict_map_replace store _ p id rfl rfl hpid2 huniq
  have hconf2 : hasTelConflict (store.map (fun r => if r.id == id then { p with isDeleted := true, deletedAt := some c1.now, status := "deleted", lastModified := c1.now, service := none, modificationHistory := p.modificationHistory ++ [(HistoryEntry.mk "deleted" c1.now ["deletedAt"])] } else r)) (collapseWs p.tel) p.id = false := by
    rw [htel]
    exact hmapconf
  have hsave2 : saveRecord (store.map (fun r => if r.id == id then { p with isDeleted := true, deletedAt := some c1.now, status := "deleted", lastModified := c1.now, service := none, modificationHistory := p.modificationHistory ++ [(HistoryEntry.mk "deleted" c1.now ["deletedAt"])] } else r)) { { p with isDeleted := true, deletedAt := some c1.now, status := "deleted", lastModified := c1.now, service := none, modificationHistory := p.modificationHistory ++ [(HistoryEntry.mk "deleted" c1.now ["deletedAt"])] } with isDeleted := false, deletedAt := none, status := "registered" } c2 = .ok (preSaveHook { { p with isDeleted := true, deletedAt := some c1.now, status := "deleted", lastModified := c1.now, service := none, modificationHistory := p.modificationHistory ++ [(HistoryEntry.mk "deleted" c1.now ["deletedAt"])] } with isDeleted := false, deletedAt := none, status := "registered" } c2) :=
    saveRecord_ok _ _ c2 hsv2 hconf2
  have hhook2 : preSaveHook { { p with isDeleted := true, deletedAt := some c1.now, status := "deleted", lastModified := c1.now, service := none, modificationHistory := p.modificationHistory ++ [(HistoryEntry.mk "deleted" c1.now ["deletedAt"])] } with isDeleted := false, deletedAt := none, status := "registered" } c2 = { p with isDeleted := false, deletedAt := none, status := "registered", lastModified := c2.now, service := none, modificationHistory := p.modificationHistory ++ [(HistoryEntry.mk "deleted" c1.now ["deletedAt"])] } :=
    preSaveHook_wellFormed_eq _ c2 hpos hname htel hvalid
  have hstep2 : restorePatient (store.map (fun r => if r.id == id then { p with isDeleted := true, deletedAt := some c1.now, status := "deleted", lastModified := c1.now, service := none, modificationHistory := p.modificationHistory ++ [(HistoryEntry.mk "deleted" c1.now ["deletedAt"])] } else r)) id c2 = ((store.map (fun r => if r.id == id then { p with isDeleted := true, deletedAt := some c1.now, status := "deleted", lastModified := c1.now, service := none, modificationHistory := p.modificationHistory ++ [(HistoryEntry.mk "deleted" c1.now ["deletedAt"])] } else r)).map (fun r => if r.id == id then { p with isDeleted := false, deletedAt := none, status := "registered", lastModified := c2.now, service := none, modificationHistory := (p.modificationHistory ++ [(HistoryEntry.mk "deleted" c1.now ["deletedAt"])]) ++ [(HistoryEntry.mk "updated" c2.now ["restored"])] } else r), .ok { p with isDeleted := false, deletedAt := none, status := "registered", lastModified := c2.now, service := none, modificationHistory := (p.modificationHistory ++ [(HistoryEntry.mk "deleted" c1.now ["deletedAt"])]) ++ [(HistoryEntry.mk "updated" c2.now ["restored"])] }) := by
    unfold restorePatient
    simp only [hfind2]
    rw [show (!({ p with isDeleted := true, deletedAt := some c1.now, status := "deleted", lastModified := c1.now, service := none, modificationHistory := p.modificationHistory ++ [(HistoryEntry.mk "deleted" c1.now ["deletedAt"])] } : Patient).isDeleted) = false from rfl]
    simp only [Bool.false_eq_true, if_false]
    rw [hsave2]
    dsimp only []
    rw [hhook2]
    rfl
  refine ⟨_, _, hstep2, rfl, rfl, rfl, rfl, rfl, rfl, rfl, rfl, rfl, ?_, rfl, rfl, rfl,
    rfl, rfl, rfl, rfl, rfl, rfl, ?_⟩
  · exact hsvc.symm
  · simp


/-- Witness for C7: deleting then restoring `alice` succeeds at both steps. -/
theorem C7_witness :
    exceptOk (softDeletePatient [alice] 1 sampleClock).2 = true ∧
    exceptOk (restorePatient (softDeletePatient [alice] 1 sampleClock).1 1
      sampleClock2).2 = true := by
  obtain ⟨s1, d, h1, s2, q, h2, -⟩ := C7_delete_restore_roundtrip [alice] 1 sampleClock
    sampleClock2 alice (by decide) (by decide) (by decide)
  constructor
  · rw [h1]
    rfl
  · rw [h1]
    dsimp only []
    rw [h2]
    rfl


theorem buildListQuery_excludeDeleted (ps : ListParams) :
    (buildListQuery ps).excludeDeleted = (ps.includeDeleted != "true") := by
  unfold buildListQuery
  dsimp only []
  repeat' split
  all_goals rfl

theorem buildListQuery_createdFrom (ps : ListParams) :
    (buildListQuery ps).createdFrom = ps.dateFrom := by
  unfold buildListQuery
  dsimp only []

theorem buildListQuery_createdTo (ps : ListParams) :
    (buildListQuery ps).createdTo = ps.dateTo.map endOfDay := by
  unfold buildListQuery
  dsimp only []

theorem buildListQuery_status (ps : ListParams) (st : String)
    (hst : truthyOpt ps.status = some st) (hall : st ≠ "all") :
    (buildListQuery ps).status = some st := by
  unfold buildListQuery
  dsimp only []
  simp only [hst]
  rw [if_pos (bne_iff_ne.mpr hall)]
  repeat' split
  all_goals rfl

theorem buildListQuery_familyGroup (ps : ListParams) (fg : String)
    (hfg : truthyOpt ps.familyGroup = some fg) (hall : fg ≠ "all") :
    (buildListQuery ps).familyGroup = some fg := by
  unfold buildListQuery
  dsimp only []
  simp only [hfg]
  rw [if_pos (bne_iff_ne.mpr hall)]
  repeat' split
  all_goals rfl

theorem buildListQuery_orClause_search (ps : ListParams) (s : String)
    (hs : searchParam ps = some s) :
    (buildListQuery ps).orClause = some (.bySearch s) := by
  unfold buildListQuery
  dsimp only []
  simp only [hs]

theorem buildListQuery_orClause_service (ps : ListParams) (sv : String)
    (hnone : searchParam ps = none) (hsv : serviceParam ps = some sv) :
    (buildListQuery ps).orClause = some (.byService sv) := by
  unfold buildListQuery
  dsimp only []
  simp only [hnone, hsv]
  repeat' split
  all_goals rfl

theorem buildExportQuery_excludeDeleted (st sv fg : Option String) (incl : String)
    (df dt : Option Nat) :
    (buildExportQuery st sv fg incl df dt).excludeDeleted = (incl != "true") := by
  unfold buildExportQuery
  dsimp only []
  repeat' split
  all_goals rfl

theorem buildExportQuery_orClause (st sv fg : Option String) (incl : String)
    (df dt : Option Nat) (s : String) (hsv : truthyOpt sv = some s) :
    (buildExportQuery st sv fg incl df dt).orClause = some (.byService s) := by
  unfold buildExportQuery
  dsimp only []
  simp only [hsv]
  repeat' split
  all_goals rfl

/-- C4 counterexample: on the list endpoint, supplying both a service filter
and a free-text search does NOT return only records matching both — the search
clause overwrites the service clause, so `alice` (who does not hold
"Eye consultation") is returned by a query filtering on that service. -/
theorem C4_counterexample :
    listPatients [alice] { service := some "Eye consultation", search := some "Alice" } =
      [alice] ∧
    alice.services.contains "Eye consultation" = false ∧
    alice.service ≠ some "Eye consultation" := by
  decide

/-- C4 amended: on the list endpoint every returned record satisfies the
status, familyGroup, date-range, and (by default) deleted-exclusion filters,
and the free-text search predicate when one is supplied; the service predicate
is guaranteed only when no free-text search is supplied, because the search
clause overwrites the service clause in the query object.  The search endpoint
does enforce its service filter and text predicate together, the export
endpoint enforces its service filter, and statistics ignore soft-deleted
records. -/
theorem C4_amended (store : List Patient) :
    (∀ (ps : ListParams) (p : Patient), p ∈ listPatients store ps →
      (ps.includeDeleted ≠ "true" → p.isDeleted = false) ∧
      (∀ st, truthyOpt ps.status = some st → st ≠ "all" → p.status = st) ∧
      (∀ fg, truthyOpt ps.familyGroup = some fg → fg ≠ "all" → p.familyGroup = fg) ∧
      (∀ d, ps.dateFrom = some d → d ≤ p.createdAt) ∧
      (∀ d, ps.dateTo = some d → p.createdAt ≤ endOfDay d) ∧
      (∀ s, searchParam ps = some s → textSearchMatch s p = true) ∧
      (∀ sv, serviceParam ps = some sv → searchParam ps = none →
        (p.service = some sv ∨ sv ∈ p.services))) ∧
    (∀ (q : String) (f : SearchFilters) (l : List Patient) (r : Patient),
      searchPatients store q f = .ok l → r ∈ l →
      r.isDeleted = false ∧ textSearchMatch (strTrim q) r = true ∧
      (∀ sv, truthyOpt f.service = some sv → (r.service = some sv ∨ sv ∈ r.services))) ∧
    (∀ (st sv fg : Option String) (incl : String) (df dt : Option Nat) (r : Patient),
      r ∈ exportPatients store st sv fg incl df dt →
      (incl ≠ "true" → r.isDeleted = false) ∧
      (∀ s, truthyOpt sv = some s → (r.service = some s ∨ s ∈ r.services))) ∧
    (∀ s, serviceDistCount store s =
      serviceDistCount (store.filter (fun r => !r.isDeleted)) s) := by
  refine ⟨?_, ?_, ?_, ?_⟩
  · intro ps p hmem
    have hq := (List.mem_filter.mp hmem).2
    unfold matchesListQuery at hq
    simp only [Bool.and_eq_true] at hq
    obtain ⟨⟨⟨⟨⟨c1, c2⟩, c3⟩, c4⟩, c5⟩, c6⟩ := hq
    refine ⟨?_, ?_, ?_, ?_, ?_, ?_, ?_⟩
    · intro hincl
      rw [buildListQuery_excludeDeleted, show (ps.includeDeleted != "true") = true from
        bne_iff_ne.mpr hincl] at c1
      simpa using c1
    · intro st hst hall
      rw [buildListQuery_status ps st hst hall] at c2
      simpa using c2
    · intro fg hfg hall
      rw [buildListQuery_familyGroup ps fg hfg hall] at c3
      simpa using c3
    · intro d hd
      rw [buildListQuery_createdFrom, hd] at c5
      simpa using c5
    · intro d hd
      rw [buildListQuery_createdTo, hd] at c6
      simpa using c6
    · intro s hs
      rw [buildListQuery_orClause_search ps s hs] at c4
      simpa [matchesOrClause] using c4
    · intro sv hsv hnone
      rw [buildListQuery_orClause_service ps sv hnone hsv] at c4
      simpa [matchesOrClause] using c4
  · intro q f l r hok hr
    unfold searchPatients at hok
    split at hok
    · simp at hok
    · injection hok with hok
      subst hok
      have hq := (List.mem_filter.mp hr).2
      unfold matchesSearchQuery at hq
      simp only [Bool.and_eq_true] at hq
      obtain ⟨⟨⟨⟨⟨⟨c1, c2⟩, c3⟩, c4⟩, c5⟩, c6⟩, c7⟩ := hq
      refine ⟨by simpa using c1, c2, ?_⟩
      intro sv hsv
      rw [hsv] at c4
      simpa using c4
  · intro st sv fg incl df dt r hmem
    have hq := (List.mem_filter.mp hmem).2
    unfold matchesListQuery at hq
    simp only [Bool.and_eq_true] at hq
    obtain ⟨⟨⟨⟨⟨c1, c2⟩, c3⟩, c4⟩, c5⟩, c6⟩ := hq
    constructor
    · intro hincl
      rw [buildExportQuery_excludeDeleted, show (incl != "true") = true from
        bne_iff_ne.mpr hincl] at c1
      simpa using c1
    · intro s hs
      rw [buildExportQuery_orClause st sv fg incl df dt s hs] at c4
      simpa [matchesOrClause] using c4
  · intro s
    unfold serviceDistCount
    rw [List.filter_filter]
    simp

/-- Witness for C4 amended: `alice` is returned by a status-filtered listing
and satisfies the guaranteed predicates. -/
theorem C4_witness :
    alice.isDeleted = false ∧ alice.status = "registered" := by
  have h := (C4_amended [alice]).1 { status := some "registered" } alice (by decide)
  exact ⟨h.1 (by decide), h.2.1 "registered" (by decide) (by decide)⟩

end HealthCamp
